import Mathlib

set_option autoImplicit false
set_option linter.unusedVariables false

/-!
Verification of the ninja-image-creator backend (`backend/main.py`) against its
natural-language specification.  The Python functions relevant to the claims are
shallowly embedded below: machine floats are modelled by `ℚ` (every comparison a
claim depends on is far from a representability boundary), Python `int()` on a
nonnegative value is `Int.floor` followed by `Int.toNat`, fallible code returns
`Except`, and the JSON record store is a `List` of records.
-/

namespace NinjaImage

/-! ## Canvas pipeline: `postprocess_image` (backend/main.py lines 277-301) -/

/--
Pixel dimensions after the smart center-crop step of `postprocess_image`.
Mirrors lines 284-297: `target_ratio = width / height`,
`img_ratio = img.width / img.height`; if `abs(img_ratio - target_ratio) > 0.01`
the longer axis is cropped (`new_w = int(img.height * target_ratio)` when the
source is wider, `new_h = int(img.width / target_ratio)` when taller), else the
dimensions are untouched.
-/
def crop_dims (srcW srcH tW tH : ℕ) : ℕ × ℕ :=
  let target_aspect : ℚ := (tW : ℚ) / (tH : ℚ)
  let img_aspect : ℚ := (srcW : ℚ) / (srcH : ℚ)
  if 1/100 < |img_aspect - target_aspect| then
    if target_aspect < img_aspect then
      ((⌊(srcH : ℚ) * target_aspect⌋).toNat, srcH)
    else
      (srcW, (⌊(srcW : ℚ) / target_aspect⌋).toNat)
  else
    (srcW, srcH)

/--
Pixel dimensions of the raster written back by `postprocess_image`: the cropped
dimensions, followed by the final `if img.size != (width, height): img.resize`
of lines 299-300.
-/
def postprocess_image (srcW srcH tW tH : ℕ) : ℕ × ℕ :=
  let c := crop_dims srcW srcH tW tH
  if c = (tW, tH) then c else (tW, tH)

/-! ## Model fallback executor: `_generate_single` (backend/main.py lines 311-340) -/

/-- Ordered fallback list from `utils/litellm_client.py` line 116. -/
def IMAGE_MODELS : List String := ["gpt-image", "gemini-image"]

/--
Reordering of lines 317-323: `models_to_try = list(IMAGE_MODELS)`; a truthy
requested `model` that is already present is removed (first occurrence) and
re-inserted at index 0, any other truthy `model` is inserted at index 0, and a
falsy `model` (absent or the empty string) leaves the list unchanged.
-/
def models_to_try (models : List String) (preferred : Option String) : List String :=
  match preferred with
  | none => models
  | some m =>
    if m = "" then models
    else if m ∈ models then m :: models.erase m
    else m :: models

/--
The `for m in models_to_try ... break / except: continue / else: raise` loop of
lines 325-334, with the adapter outcome per model given by `attempt`.  Returns
the loop result together with the list of models on which `generate_image` was
actually invoked.  An exhausted loop raises carrying `last_error` (which is
`None` when the loop body never ran).
-/
def run_chain {ε ρ : Type} (attempt : String → Except ε ρ) :
    List String → Option ε → Except (Option ε) ρ × List String
  | [], last => (Except.error last, [])
  | m :: ms, last =>
    match attempt m with
    | Except.ok r => (Except.ok r, [m])
    | Except.error e =>
      let rest := run_chain attempt ms (some e)
      (rest.1, m :: rest.2)

/-- Result of `_generate_single` for a request with optional preferred model. -/
def generate_single {ε ρ : Type} (attempt : String → Except ε ρ)
    (preferred : Option String) : Except (Option ε) ρ :=
  (run_chain attempt (models_to_try IMAGE_MODELS preferred) none).1

/-- The models `_generate_single` actually invokes `generate_image` on. -/
def generate_single_called {ε ρ : Type} (attempt : String → Except ε ρ)
    (preferred : Option String) : List String :=
  (run_chain attempt (models_to_try IMAGE_MODELS preferred) none).2

/-! ## Prompt enrichment: `_build_prompt` (lines 342-359) and `refine` (lines 548-591) -/

/-- Style suffix table of backend/main.py lines 261-271. -/
def STYLE_SUFFIXES : List (String × String) :=
  [("none", ""),
   ("photorealistic", ", photorealistic, ultra detailed, 8k, DSLR photo"),
   ("digital-art", ", digital art, vibrant colors, detailed illustration"),
   ("watercolor", ", watercolor painting, soft edges, artistic, paper texture"),
   ("oil-painting", ", oil painting, rich textures, classical style, canvas"),
   ("anime", ", anime style, manga, Japanese animation, cel shaded"),
   ("3d-render", ", 3D render, Cinema 4D, octane render, detailed lighting"),
   ("minimalist", ", minimalist, clean lines, simple shapes, modern design"),
   ("vintage", ", vintage, retro, film grain, muted colors, nostalgic")]

/-- Python `STYLE_SUFFIXES.get(style, "")`. -/
def style_suffix (style : String) : String :=
  ((STYLE_SUFFIXES.find? (fun p => p.1 == style)).map Prod.snd).getD ""

/--
Embedding of `_build_prompt` (lines 342-359).  The outcome of the `chat`
enrichment call is passed in as `chatResult`; a failure is swallowed by the
bare `except Exception: pass` and the unenriched `prompt` is used.  Returns
`(final_prompt + style_suffix, enhanced_prompt)`.
-/
def build_prompt (chatResult : Except String String) (prompt style : String)
    (enhance : Bool) : String × Option String :=
  if enhance then
    match chatResult with
    | Except.ok enhanced => (enhanced ++ style_suffix style, some enhanced)
    | Except.error _ => (prompt ++ style_suffix style, none)
  else
    (prompt ++ style_suffix style, none)

/-- Failure kinds of the `refine` endpoint (each a distinct `HTTPException`). -/
inductive RefineError where
  | parentNotFound
  | promptMergingFailed
  | generationFailed
deriving DecidableEq

/--
The prompt-merge step of `refine` (lines 556-569): a failing `chat` call is
re-raised as `HTTPException(500, "Prompt merging failed")`; on success the
parent style suffix is appended to the merged prompt.
-/
def refine_prompt (chatResult : Except String String) (parentStyle : String) :
    Except RefineError String :=
  match chatResult with
  | Except.error _ => Except.error RefineError.promptMergingFailed
  | Except.ok merged => Except.ok (merged ++ style_suffix parentStyle)

/-! ## Asset records, lineage and favorites (lines 929-939, 1651-1683) -/

/--
An image record of the JSON store, restricted to the fields the claims touch.
`created_at` ISO timestamps compare lexicographically, i.e. chronologically,
so they are modelled by `ℕ`; a record without a `favorited` key is `none`.
-/
structure ImageRecord where
  id : String
  parentId : Option String := none
  createdAt : ℕ := 0
  favorited : Option Bool := none
  prompt : String := ""
  filename : String := ""
deriving DecidableEq

/-- Python `next((r for r in db if r["id"] == image_id), None)`. -/
def find_record (db : List ImageRecord) (image_id : String) : Option ImageRecord :=
  db.find? (fun r => r.id == image_id)

/-- Failure kinds of the `undo` endpoint (lines 1651-1666). -/
inductive UndoError where
  | imageNotFound
  | nothingToUndo
  | parentNotFound
deriving DecidableEq

/-- Failure kinds of the `redo` endpoint (lines 1669-1683). -/
inductive RedoError where
  | imageNotFound
  | nothingToRedo
deriving DecidableEq

/--
Embedding of `undo_image` (lines 1651-1666): look the record up (404 if
missing); `if not parent_id` — i.e. the key is absent or the value is the
empty string — raise the 400 "Nothing to undo"; otherwise look up the parent,
raising 404 "Parent image not found" when it is dangling.
-/
def undo_image (db : List ImageRecord) (image_id : String) :
    Except UndoError ImageRecord :=
  match find_record db image_id with
  | none => Except.error UndoError.imageNotFound
  | some record =>
    match record.parentId with
    | none => Except.error UndoError.nothingToUndo
    | some pid =>
      if pid = "" then Except.error UndoError.nothingToUndo
      else
        match find_record db pid with
        | none => Except.error UndoError.parentNotFound
        | some parent => Except.ok parent

/-- Python `[r for r in db if r.get("parent_id") == image_id]` (line 1677). -/
def redo_children (db : List ImageRecord) (image_id : String) : List ImageRecord :=
  db.filter (fun r => r.parentId == some image_id)

/--
First element attaining the maximal `created_at`.  Python's
`children.sort(key=..., reverse=True)` is a stable descending sort, so the
subsequent `children[0]` is exactly the earliest child in store order among
those with the largest `created_at`; this recursion computes that element
directly.
-/
def pick_latest (c : ImageRecord) : List ImageRecord → ImageRecord
  | [] => c
  | r :: rs => if c.createdAt < r.createdAt then pick_latest r rs else pick_latest c rs

/--
Embedding of `redo_image` (lines 1669-1683): look the record up (404 if
missing); with no children raise the 400 "Nothing to redo"; otherwise sort the
children by `created_at` descending (stable) and return the first.
-/
def redo_image (db : List ImageRecord) (image_id : String) :
    Except RedoError ImageRecord :=
  match find_record db image_id with
  | none => Except.error RedoError.imageNotFound
  | some _ =>
    match redo_children db image_id with
    | [] => Except.error RedoError.nothingToRedo
    | c :: cs => Except.ok (pick_latest c cs)

/--
Line 936: `record["favorited"] = not record.get("favorited", False)` — the one
mutation `toggle_favorite` performs on the record.
-/
def toggle_favorite_record (r : ImageRecord) : ImageRecord :=
  { r with favorited := some (! r.favorited.getD false) }

/-- In-place update of the first record whose id matches, as done by mutating
the object returned by `next(...)` inside the loaded list. -/
def toggle_first : List ImageRecord → String → List ImageRecord
  | [], _ => []
  | r :: rs, image_id =>
    if r.id == image_id then toggle_favorite_record r :: rs
    else r :: toggle_first rs image_id

/-- Embedding of the `toggle_favorite` endpoint (lines 929-939): `none` is the
404, otherwise the saved store and the returned `favorited` flag. -/
def toggle_favorite (db : List ImageRecord) (image_id : String) :
    Option (List ImageRecord × Bool) :=
  match find_record db image_id with
  | none => none
  | some r => some (toggle_first db image_id, ! r.favorited.getD false)

/-! ## Watermark font size (lines 1728-1736) -/

/--
Font size used by `watermark_image`: line 1730 constructs the font with
`req.font_size` directly; the base image's width is never consulted.  The
first argument records the base image width only to exhibit that fact.
-/
def watermark_font_size (imgWidth req_font_size : ℕ) : ℕ :=
  req_font_size

/-- Validation of `WatermarkRequest.font_size` (line 1694: `ge=12, le=200`). -/
def watermark_font_valid (font_size : ℕ) : Prop :=
  12 ≤ font_size ∧ font_size ≤ 200

/-! ## Batch coordinator: `batch_csv` (lines 2242-2350) -/

/-- The `_batch_status[batch_id]` record, restricted to the claimed fields. -/
structure BatchStatus where
  total : ℕ
  completed : ℕ
  failed : ℕ
  status : String
deriving DecidableEq

/-- Initial job record of lines 2276-2284. -/
def init_batch_status (total : ℕ) : BatchStatus :=
  { total := total, completed := 0, failed := 0, status := "processing" }

/-- One iteration of the `for f in as_completed(futures)` loop (lines
2298-2304): a successful unit increments `completed`, a failed one `failed`. -/
def record_outcome (s : BatchStatus) (ok : Bool) : BatchStatus :=
  if ok then { s with completed := s.completed + 1 }
  else { s with failed := s.failed + 1 }

/-- Job states reached from `s` while the remaining outcomes arrive. -/
def batch_states_from (s : BatchStatus) : List Bool → List BatchStatus
  | [] => [s]
  | b :: bs => s :: batch_states_from (record_outcome s b) bs

/--
Every observable job state while `_run_batch` is still consuming completions,
for a given arrival-ordered list of unit outcomes (`true` = unit succeeded).
The consuming loop runs on the single `_run_batch` thread, so the states are
exactly the fold prefixes.
-/
def run_batch_states (outcomes : List Bool) : List BatchStatus :=
  batch_states_from (init_batch_status outcomes.length) outcomes

/-- The job record after line 2306 set `status = "complete"`. -/
def run_batch_final (outcomes : List Bool) : BatchStatus :=
  { outcomes.foldl record_outcome (init_batch_status outcomes.length) with
      status := "complete" }

/--
Embedding of `_generate_single_batch_item` (lines 2319-2350).  `genOutcome` is
the outcome of the `generate_image(prompt=..., model="gemini-image", size=size)`
call, which on success returns the output file path as a `str`
(utils/images.py lines 42-119).  Line 2331 then evaluates `result["base64"]`,
which raises `TypeError` for a `str` (and line 2333 would next call the
two-parameter `postprocess_image(file_path, target_size)` as
`postprocess_image(img, w, h)`), so the function raises on every path.
-/
def generate_single_batch_item (genOutcome : Except String String) :
    Except String ImageRecord :=
  match genOutcome with
  | Except.error e => Except.error e
  | Except.ok _path => Except.error ("TypeError: string indices must be integers")

/-! ## GIF export: `export_gif` (lines 2534-2615) -/

/-- Form validation of lines 2544-2547: duration in `[1, 5]`, fps in `{10, 15, 24}`. -/
def gif_params_valid (duration : ℚ) (fps : ℕ) : Prop :=
  (1 ≤ duration ∧ duration ≤ 5) ∧ (fps = 10 ∨ fps = 15 ∨ fps = 24)

/-- Line 2560: `total_frames = int(duration * fps)` — for the validated
(positive) range, Python `int()` is truncation towards zero, i.e. the floor.
The frame loop `for i in range(total_frames)` appends exactly one frame per
index, so this is also the number of frames written to the GIF. -/
def total_frames (duration : ℚ) (fps : ℕ) : ℕ :=
  (⌊duration * (fps : ℚ)⌋).toNat

/-! ## Concrete instances used by witnesses and counterexamples -/

/-- Adapter behaviour where the first model fails and the second succeeds: it
returns the winning model's own name as the raster payload. -/
def demo_attempt : String → Except String String :=
  fun m => if m = "gpt-image" then Except.error ("gateway 500") else Except.ok m

/-- Error attached to a failing model: the model's own name. -/
def demo_err (m : String) : String := m

/-- Adapter behaviour where every model fails. -/
def demo_all_fail : String → Except String String :=
  fun m => Except.error (demo_err m)

/-- Record store with a root, two children of the root, and no grandchildren. -/
def demo_db : List ImageRecord :=
  [{ id := "root", parentId := none, createdAt := 0 },
   { id := "childA", parentId := some ("root"), createdAt := 1 },
   { id := "childB", parentId := some ("root"), createdAt := 2 }]

/-- Record store whose only record has a dangling parent reference. -/
def dangling_db : List ImageRecord :=
  [{ id := "b", parentId := some ("a"), createdAt := 1 }]

/-! ## Theorems -/

/--
Claim C1: for every source image of arbitrary dimensions and every valid target
size `(targetW, targetH)`, `postprocess_image` produces an output raster whose
pixel dimensions equal exactly `(targetW, targetH)` — the unconditional final
resize of lines 299-300 guarantees the postcondition.
-/
theorem postprocess_image_dims (srcW srcH tW tH : ℕ) :
    postprocess_image srcW srcH tW tH = (tW, tH) := by
  unfold postprocess_image
  dsimp only
  split
  · next h => exact h
  · rfl

/--
Claim C8 counterexample: a 512-wide and a 2048-wide base image watermarked with
the same request (`font_size = 36`) are rendered with the same absolute font
size, and the size used on the 2048-wide image is not the value obtained by
scaling 36 linearly from the 1024 px reference width (which would be 72).
-/
theorem watermark_font_size_cex :
    watermark_font_size 512 36 = watermark_font_size 2048 36 ∧
    watermark_font_size 2048 36 ≠ 36 * 2048 / 1024 := by
  decide

/--
Claim C8 (amended): the font size used to render the watermark text is exactly
the requested `font_size` (validated to 12..200) for every base image width; it
does not depend on the image width, and the 12 px minimum comes from request
validation alone.
-/
theorem watermark_font_size_constant (w w2 s : ℕ) (h : watermark_font_valid s) :
    watermark_font_size w s = s ∧
    watermark_font_size w s = watermark_font_size w2 s ∧
    12 ≤ watermark_font_size w s :=
  ⟨rfl, rfl, h.1⟩

/-- Witness for `watermark_font_size_constant` at widths 512 and 2048 with the
default request size 36. -/
theorem watermark_font_size_constant_witness :
    watermark_font_size 512 36 = 36 ∧
    watermark_font_size 512 36 = watermark_font_size 2048 36 ∧
    12 ≤ watermark_font_size 512 36 :=
  watermark_font_size_constant 512 2048 36 (by exact ⟨by decide, by decide⟩)

/--
Claim C10: for every image record, toggling the favorite flag negates the
effective (`.get("favorited", False)`) value, toggling twice restores it, a
record with no `favorited` field toggles to `true`, and every field other than
`favorited` is unchanged; at the endpoint level, the returned
flag is the negation of the found record's effective flag and the saved store
is the one with the first matching record toggled.
-/
theorem toggle_favorite_record_involution (r : ImageRecord) :
    (toggle_favorite_record r).favorited.getD false = ! (r.favorited.getD false) ∧
    (toggle_favorite_record (toggle_favorite_record r)).favorited.getD false
      = r.favorited.getD false ∧
    (toggle_favorite_record { r with favorited := none }).favorited = some true ∧
    (toggle_favorite_record r).id = r.id ∧
    (toggle_favorite_record r).parentId = r.parentId ∧
    (toggle_favorite_record r).createdAt = r.createdAt ∧
    (toggle_favorite_record r).prompt = r.prompt ∧
    (toggle_favorite_record r).filename = r.filename ∧
    (∀ (db : List ImageRecord) (image_id : String) (found : ImageRecord),
        find_record db image_id = some found →
        toggle_favorite db image_id
          = some (toggle_first db image_id, ! found.favorited.getD false)) := by
  refine ⟨?_, ?_, ?_, ?_, ?_, ?_, ?_, ?_, ?_⟩
  all_goals try
    first
    | (rcases r with ⟨i, p, c, fav, pr, fn⟩
       rcases fav with _ | b
       · simp [toggle_favorite_record]
       · cases b <;> simp [toggle_favorite_record])
  intro db image_id found hfind
  simp [toggle_favorite, hfind]

/-- Witness for `toggle_favorite_record_involution` at the endpoint level:
toggling the never-favorited root of `demo_db` reports the flag as `true`. -/
theorem toggle_favorite_record_involution_witness :
    toggle_favorite demo_db "root" = some (toggle_first demo_db "root", true) := by
  have h9 := (toggle_favorite_record_involution { id := "" }).2.2.2.2.2.2.2.2
  have h := h9 demo_db "root" { id := "root", parentId := none, createdAt := 0 } rfl
  simpa using h

/--
Claim C5 counterexample: at the `refine` call site an enrichment (prompt-merge)
failure is propagated to the caller as `HTTPException(500, "Prompt merging
failed")` instead of proceeding with the unenriched input.
-/
theorem refine_prompt_propagates_cex :
    refine_prompt (Except.error ("boom")) ("none")
      = Except.error RefineError.promptMergingFailed := by
  rfl

/--
Claim C5 (amended): the `_build_prompt` call site swallows an enrichment
failure and proceeds with the unenriched prompt (and never fails), but the
`refine` prompt-merge call site propagates the failure to the caller.
-/
theorem enrichment_fail_open_amended :
    (∀ (e prompt style : String),
        build_prompt (Except.error e) prompt style true
          = (prompt ++ style_suffix style, none)) ∧
    (∀ (c : Except String String) (prompt style : String),
        build_prompt c prompt style false = (prompt ++ style_suffix style, none)) ∧
    (∀ (e parentStyle : String),
        refine_prompt (Except.error e) parentStyle
          = Except.error RefineError.promptMergingFailed) :=
  ⟨fun e p s => rfl, fun c p s => rfl, fun e ps => rfl⟩

/--
Claim C7 counterexample: the accepted request `duration = 1.26 s`, `fps = 10`
yields `int(12.6) = 12` frames, while `round(durationSeconds * fps) = 13`.
-/
theorem total_frames_not_round_cex :
    gif_params_valid (63/50) 10 ∧
    total_frames (63/50) 10 = 12 ∧
    round ((63/50 : ℚ) * ((10 : ℕ) : ℚ)) = 13 ∧
    (total_frames (63/50) 10 : ℤ) ≠ round ((63/50 : ℚ) * ((10 : ℕ) : ℚ)) := by
  refine ⟨⟨⟨by norm_num, by norm_num⟩, Or.inl rfl⟩, ?_, ?_, ?_⟩
  · norm_num [total_frames]
    rfl
  · rw [round_eq]
    norm_num
  · rw [round_eq]
    norm_num [total_frames]

/--
Claim C7 (amended): the number of GIF frames generated is the truncation
(floor) of `durationSeconds * fps`, characterised by
`frames ≤ duration * fps < frames + 1`; the particular cases still hold:
duration 2.0 s at 15 fps yields exactly 30 frames and 1.0 s at 24 fps yields
24 frames.
-/
theorem total_frames_floor (duration : ℚ) (fps : ℕ)
    (h : gif_params_valid duration fps) :
    ((total_frames duration fps : ℚ) ≤ duration * (fps : ℚ) ∧
      duration * (fps : ℚ) < (total_frames duration fps : ℚ) + 1) ∧
    total_frames 2 15 = 30 ∧ total_frames 1 24 = 24 := by
  obtain ⟨⟨h1, _⟩, _⟩ := h
  have hnn : (0 : ℚ) ≤ duration * (fps : ℚ) :=
    mul_nonneg (le_trans zero_le_one h1) (Nat.cast_nonneg fps)
  have hfl : (0 : ℤ) ≤ ⌊duration * (fps : ℚ)⌋ := Int.floor_nonneg.mpr hnn
  have key : ((total_frames duration fps : ℕ) : ℚ) = ((⌊duration * (fps : ℚ)⌋ : ℤ) : ℚ) := by
    unfold total_frames
    norm_cast
    exact Int.toNat_of_nonneg hfl
  refine ⟨⟨?_, ?_⟩, by norm_num [total_frames]; rfl, by norm_num [total_frames]; rfl⟩
  · rw [key]
    exact Int.floor_le _
  · rw [key]
    exact Int.lt_floor_add_one _

/-- Witness for `total_frames_floor` at the spec scenario duration 2 s, 15 fps. -/
theorem total_frames_floor_witness :
    ((total_frames 2 15 : ℚ) ≤ (2 : ℚ) * ((15 : ℕ) : ℚ) ∧
      (2 : ℚ) * ((15 : ℕ) : ℚ) < (total_frames 2 15 : ℚ) + 1) ∧
    total_frames 2 15 = 30 ∧ total_frames 1 24 = 24 :=
  total_frames_floor 2 15 ⟨⟨by norm_num, by norm_num⟩, Or.inr (Or.inl rfl)⟩

/-- The fallback loop on a list that starts with failing models followed by a
succeeding one returns the success and invokes exactly the failing models plus
the winner. -/
theorem run_chain_append {ε ρ : Type} (attempt : String → Except ε ρ)
    (pre : List String) (m : String) (post : List String) (r : ρ)
    (hpre : ∀ x ∈ pre, ∃ e, attempt x = Except.error e)
    (hm : attempt m = Except.ok r) :
    ∀ last : Option ε,
      (run_chain attempt (pre ++ m :: post) last).1 = Except.ok r ∧
      (run_chain attempt (pre ++ m :: post) last).2 = pre ++ [m] := by
  induction pre with
  | nil =>
    intro last
    simp [run_chain, hm]
  | cons a as ih =>
    intro last
    obtain ⟨e, he⟩ := hpre a (by simp)
    have ihres := ih (fun x hx => hpre x (by simp [hx])) (some e)
    simp [run_chain, he, ihres.1, ihres.2]

/-- The fallback loop on a list of models that all fail exhausts the list and
raises carrying the last model's error. -/
theorem run_chain_all_fail {ε ρ : Type} (attempt : String → Except ε ρ)
    (err : String → ε) :
    ∀ (ms : List String) (m : String),
      (∀ x ∈ ms ++ [m], attempt x = Except.error (err x)) →
      ∀ last : Option ε,
        (run_chain attempt (ms ++ [m]) last).1 = Except.error (some (err m)) ∧
        (run_chain attempt (ms ++ [m]) last).2 = ms ++ [m] := by
  intro ms
  induction ms with
  | nil =>
    intro m hall last
    have hm := hall m (by simp)
    simp [run_chain, hm]
  | cons a as ih =>
    intro m hall last
    have ha := hall a (by simp)
    have ihres := ih m (fun x hx => hall x (by simp at hx ⊢; tauto)) (some (err a))
    simp [run_chain, ha, ihres.1, ihres.2]

/--
Claim C2: `_generate_single` attempts adapters strictly in list order — with a
failing front segment before the first succeeding model, it returns that
model's output, invokes exactly the failing front plus the winner (nothing
after the first success) — and a truthy requested model is moved to the front
of the list with its duplicate removed before the chain runs.
-/
theorem generate_single_first_success :
    (∀ (ε ρ : Type) (attempt : String → Except ε ρ) (preferred : Option String)
        (pre post : List String) (m : String) (r : ρ),
        models_to_try IMAGE_MODELS preferred = pre ++ m :: post →
        (∀ x ∈ pre, ∃ e, attempt x = Except.error e) →
        attempt m = Except.ok r →
        generate_single attempt preferred = Except.ok r ∧
        generate_single_called attempt preferred = pre ++ [m]) ∧
    (∀ (models : List String) (p : String), p ≠ "" →
        models_to_try models (some p) = p :: models.erase p) := by
  constructor
  · intro ε ρ attempt preferred pre post m r hsplit hpre hm
    have h := run_chain_append attempt pre m post r hpre hm none
    unfold generate_single generate_single_called
    rw [hsplit]
    exact h
  · intro models p hp
    show (if p = "" then models
      else if p ∈ models then p :: models.erase p else p :: models) = p :: models.erase p
    rw [if_neg hp]
    by_cases hmem : p ∈ models
    · rw [if_pos hmem]
    · rw [if_neg hmem, List.erase_of_not_mem hmem]

/-- Witness for `generate_single_first_success`: with the first model failing
and the second succeeding, the second model's output is returned and both (and
only both) models are invoked. -/
theorem generate_single_first_success_witness :
    generate_single demo_attempt none = Except.ok ("gemini-image") ∧
    generate_single_called demo_attempt none = ["gpt-image", "gemini-image"] := by
  have h := generate_single_first_success.1 String String demo_attempt none
    ["gpt-image"] [] "gemini-image" ("gemini-image") rfl
    (fun x hx => ⟨("gateway 500"), by
      rw [List.mem_singleton] at hx
      subst hx
      rfl⟩)
    rfl
  exact h

/--
Claim C3: when every model in the (already reordered) fallback list fails,
`_generate_single` invokes every model and raises exactly one aggregated
`RuntimeError("All image models failed. Last error: ...")` whose carried cause
is the error of the last model attempted.
-/
theorem generate_single_all_adapters_failed :
    ∀ (ε ρ : Type) (attempt : String → Except ε ρ) (preferred : Option String)
      (err : String → ε) (pre : List String) (m : String),
      models_to_try IMAGE_MODELS preferred = pre ++ [m] →
      (∀ x ∈ models_to_try IMAGE_MODELS preferred, attempt x = Except.error (err x)) →
      generate_single attempt preferred = Except.error (some (err m)) ∧
      generate_single_called attempt preferred = models_to_try IMAGE_MODELS preferred := by
  intro ε ρ attempt preferred err pre m hsplit hall
  rw [hsplit] at hall ⊢
  unfold generate_single generate_single_called
  rw [hsplit]
  exact run_chain_all_fail attempt err pre m hall none

/-- Witness for `generate_single_all_adapters_failed`: both models fail, the
raised failure carries the second (last) model's error, and both models were
attempted. -/
theorem generate_single_all_adapters_failed_witness :
    generate_single demo_all_fail none = Except.error (some (demo_err ("gemini-image"))) ∧
    generate_single_called demo_all_fail none = models_to_try IMAGE_MODELS none :=
  generate_single_all_adapters_failed String String demo_all_fail none demo_err
    ["gpt-image"] "gemini-image" rfl (fun x hx => rfl)

/--
Claim C6 counterexample: a 1512x1000 source (aspect 1.512) is within 1%
relative tolerance of a 1536x1024 target (aspect 1.5) — the relative deviation
is 0.8% — yet `postprocess_image` center-crops it (to 1500x1000) because the
code compares the absolute, not relative, difference of the two aspect values
with 0.01.
-/
theorem crop_relative_tolerance_cex :
    |((1512 : ℕ) : ℚ) / ((1000 : ℕ) : ℚ) - ((1536 : ℕ) : ℚ) / ((1024 : ℕ) : ℚ)| ≤
      (1/100) * (((1536 : ℕ) : ℚ) / ((1024 : ℕ) : ℚ)) ∧
    crop_dims 1512 1000 1536 1024 = (1500, 1000) ∧
    crop_dims 1512 1000 1536 1024 ≠ (1512, 1000) := by
  have hc : crop_dims 1512 1000 1536 1024 = (1500, 1000) := by
    simp only [crop_dims]
    norm_num
    rw [abs_of_nonneg (by norm_num : (0:ℚ) ≤ 3/250)]
    rw [if_pos (by norm_num : (1:ℚ)/100 < 3/250)]
    rfl
  refine ⟨?_, hc, ?_⟩
  · norm_num
    rw [abs_of_nonneg (by norm_num)]
    norm_num
  · rw [hc]
    decide

/--
Claim C6 (amended): `postprocess_image` skips cropping (keeping the source
dimensions for the resize-only path) exactly when the absolute difference of
the two aspect values is at most 0.01; the 0.01 threshold is absolute, not
relative (the two notions coincide only for square targets).
-/
theorem crop_iff_abs_tolerance (srcW srcH tW tH : ℕ)
    (hsw : 0 < srcW) (hsh : 0 < srcH) (hw : 0 < tW) (hh : 0 < tH) :
    crop_dims srcW srcH tW tH = (srcW, srcH) ↔
      |(srcW : ℚ) / (srcH : ℚ) - (tW : ℚ) / (tH : ℚ)| ≤ 1/100 := by
  have hshq : (0:ℚ) < (srcH:ℚ) := by exact_mod_cast hsh
  have hswq : (0:ℚ) < (srcW:ℚ) := by exact_mod_cast hsw
  have htHq : (0:ℚ) < (tH:ℚ) := by exact_mod_cast hh
  have htWq : (0:ℚ) < (tW:ℚ) := by exact_mod_cast hw
  have htpos : (0:ℚ) < (tW:ℚ)/(tH:ℚ) := div_pos htWq htHq
  simp only [crop_dims]
  by_cases hc : (1:ℚ)/100 < |(srcW : ℚ)/(srcH : ℚ) - (tW : ℚ)/(tH : ℚ)|
  · rw [if_pos hc]
    constructor
    · intro heq
      exfalso
      by_cases hlt : (tW:ℚ)/(tH:ℚ) < (srcW:ℚ)/(srcH:ℚ)
      · rw [if_pos hlt, Prod.mk.injEq] at heq
        have hlt2 : (srcH:ℚ) * ((tW:ℚ)/(tH:ℚ)) < (srcW:ℚ) := by
          have h3 : (srcH:ℚ) * ((tW:ℚ)/(tH:ℚ)) < (srcH:ℚ) * ((srcW:ℚ)/(srcH:ℚ)) :=
            mul_lt_mul_of_pos_left hlt hshq
          rwa [mul_comm ((srcH:ℚ)) ((srcW:ℚ)/(srcH:ℚ)),
            div_mul_cancel₀ _ (ne_of_gt hshq)] at h3
        have hfl : ⌊(srcH:ℚ) * ((tW:ℚ)/(tH:ℚ))⌋ < (srcW : ℤ) :=
          Int.floor_lt.mpr (by exact_mod_cast hlt2)
        have h1 := heq.1
        omega
      · rw [if_neg hlt, Prod.mk.injEq] at heq
        have hne : (srcW:ℚ)/(srcH:ℚ) ≠ (tW:ℚ)/(tH:ℚ) := by
          intro h
          rw [h, sub_self, abs_zero] at hc
          exact absurd hc (by norm_num)
        have hlt2 : (srcW:ℚ)/(srcH:ℚ) < (tW:ℚ)/(tH:ℚ) :=
          lt_of_le_of_ne (not_lt.mp hlt) hne
        have hlt3 : (srcW:ℚ) / ((tW:ℚ)/(tH:ℚ)) < (srcH:ℚ) := by
          rw [div_lt_iff₀ htpos]
          have h3 : ((srcW:ℚ)/(srcH:ℚ)) * (srcH:ℚ) < ((tW:ℚ)/(tH:ℚ)) * (srcH:ℚ) :=
            mul_lt_mul_of_pos_right hlt2 hshq
          rwa [div_mul_cancel₀ _ (ne_of_gt hshq), mul_comm] at h3
        have hfl : ⌊(srcW:ℚ) / ((tW:ℚ)/(tH:ℚ))⌋ < (srcH : ℤ) :=
          Int.floor_lt.mpr (by exact_mod_cast hlt3)
        have h2 := heq.2
        omega
    · intro hle
      exact absurd hle (not_le.mpr hc)
  · rw [if_neg hc]
    exact ⟨fun _ => not_lt.mp hc, fun _ => rfl⟩

/-- Witness for `crop_iff_abs_tolerance` at a 100x100 source and 50x50 target:
equal aspects, so no cropping. -/
theorem crop_iff_abs_tolerance_witness :
    crop_dims 100 100 50 50 = (100, 100) ↔
      |((100 : ℕ) : ℚ) / ((100 : ℕ) : ℚ) - ((50 : ℕ) : ℚ) / ((50 : ℕ) : ℚ)| ≤ 1/100 :=
  crop_iff_abs_tolerance 100 100 50 50 (by norm_num) (by norm_num) (by norm_num)
    (by norm_num)

/-- The starting record never beats the picked one. -/
theorem le_pick_latest (c : ImageRecord) (cs : List ImageRecord) :
    c.createdAt ≤ (pick_latest c cs).createdAt := by
  induction cs generalizing c with
  | nil => exact le_refl _
  | cons r rs ih =>
    simp only [pick_latest]
    by_cases h : c.createdAt < r.createdAt
    · rw [if_pos h]
      exact le_trans (le_of_lt h) (ih r)
    · rw [if_neg h]
      exact ih c

/-- `pick_latest` returns the first element of the list attaining the maximal
`createdAt`: everything before it is strictly older, everything after it is no
newer. -/
theorem pick_latest_split (c : ImageRecord) (cs : List ImageRecord) :
    ∃ pre post, c :: cs = pre ++ (pick_latest c cs) :: post ∧
      (∀ x ∈ pre, x.createdAt < (pick_latest c cs).createdAt) ∧
      (∀ x ∈ post, x.createdAt ≤ (pick_latest c cs).createdAt) := by
  induction cs generalizing c with
  | nil => exact ⟨[], [], rfl, by simp, by simp⟩
  | cons r rs ih =>
    by_cases h : c.createdAt < r.createdAt
    · have hm : pick_latest c (r :: rs) = pick_latest r rs := by
        simp only [pick_latest, if_pos h]
      rw [hm]
      obtain ⟨pre, post, hsplit, hpre, hpost⟩ := ih r
      refine ⟨c :: pre, post, ?_, ?_, hpost⟩
      · rw [List.cons_append, ← hsplit]
      · intro x hx
        rcases List.mem_cons.mp hx with rfl | hx2
        · exact lt_of_lt_of_le h (le_pick_latest r rs)
        · exact hpre x hx2
    · have hm : pick_latest c (r :: rs) = pick_latest c rs := by
        simp only [pick_latest, if_neg h]
      rw [hm]
      obtain ⟨pre, post, hsplit, hpre, hpost⟩ := ih c
      cases pre with
      | nil =>
        rw [List.nil_append] at hsplit
        injection hsplit with h1 h2
        refine ⟨[], r :: rs, ?_, by simp, ?_⟩
        · rw [List.nil_append, ← h1]
        · intro x hx
          rw [← h1]
          rcases List.mem_cons.mp hx with rfl | hx2
          · exact not_lt.mp h
          · have hx3 := hpost x (h2 ▸ hx2)
            rwa [← h1] at hx3
      | cons p ps =>
        rw [List.cons_append] at hsplit
        injection hsplit with h1 h2
        refine ⟨c :: r :: ps, post, ?_, ?_, hpost⟩
        · rw [List.cons_append, List.cons_append, ← h2]
        · have hcm : c.createdAt < (pick_latest c rs).createdAt := by
            have hp := hpre p (List.mem_cons_self p ps)
            rwa [← h1] at hp
          intro x hx
          rcases List.mem_cons.mp hx with hxc | hx2
          · rw [hxc]
            exact hcm
          · rcases List.mem_cons.mp hx2 with hxr | hx3
            · rw [hxr]
              exact lt_of_le_of_lt (not_lt.mp h) hcm
            · exact hpre x (List.mem_cons_of_mem p hx3)

/--
Claim C9 counterexample: the only record of the store has a (dangling) parent
reference, so by the claim `undo` should return the parent asset; instead the
code fails with the 404 "Parent image not found" (`AssetNotFound`), which is
not `NothingToUndo` and not a returned parent.
-/
theorem undo_dangling_parent_cex :
    find_record dangling_db "b"
      = some { id := "b", parentId := some ("a"), createdAt := 1 } ∧
    undo_image dangling_db "b" = Except.error UndoError.parentNotFound ∧
    UndoError.parentNotFound ≠ UndoError.nothingToUndo := by
  refine ⟨rfl, rfl, by decide⟩

/--
Claim C9 (amended): for every record of the store, `undo` fails with
`NothingToUndo` iff the record has no (or an empty) parent reference; with a
parent reference whose target exists it returns the parent asset, and with a
dangling reference it fails with the parent-not-found error.  `redo` fails
with `NothingToRedo` iff the record has no children; otherwise it returns the
child with the most recent `created_at`, ties broken deterministically by the
earliest position in store order.
-/
theorem undo_redo_amended :
    (∀ (db : List ImageRecord) (image_id : String) (record : ImageRecord),
        find_record db image_id = some record →
        ((undo_image db image_id = Except.error UndoError.nothingToUndo) ↔
          (record.parentId = none ∨ record.parentId = some "")) ∧
        (∀ pid, record.parentId = some pid → pid ≠ "" →
          (∀ parent, find_record db pid = some parent →
            undo_image db image_id = Except.ok parent) ∧
          (find_record db pid = none →
            undo_image db image_id = Except.error UndoError.parentNotFound))) ∧
    (∀ (db : List ImageRecord) (image_id : String) (record : ImageRecord),
        find_record db image_id = some record →
        ((redo_image db image_id = Except.error RedoError.nothingToRedo) ↔
          redo_children db image_id = []) ∧
        (∀ c, redo_image db image_id = Except.ok c →
          ∃ pre post, redo_children db image_id = pre ++ c :: post ∧
            (∀ x ∈ pre, x.createdAt < c.createdAt) ∧
            (∀ x ∈ post, x.createdAt ≤ c.createdAt))) := by
  constructor
  · intro db image_id record hfind
    constructor
    · rcases hrec : record.parentId with _ | pid
      · simp [undo_image, hfind, hrec]
      · by_cases hpid : pid = ""
        · subst hpid
          simp [undo_image, hfind, hrec]
        · simp only [undo_image, hfind, hrec]
          rw [if_neg hpid]
          constructor
          · intro hcontra
            cases hfp : find_record db pid with
            | none => rw [hfp] at hcontra; simp at hcontra
            | some p => rw [hfp] at hcontra; simp at hcontra
          · intro hcontra
            rcases hcontra with h1 | h1
            · exact absurd h1 (by simp)
            · rw [Option.some.injEq] at h1
              exact absurd h1 hpid
    · intro pid hpid hne
      constructor
      · intro parent hfp
        simp [undo_image, hfind, hpid, hne, hfp]
      · intro hfp
        simp [undo_image, hfind, hpid, hne, hfp]
  · intro db image_id record hfind
    constructor
    · rcases hch : redo_children db image_id with _ | ⟨c, cs⟩
      · simp [redo_image, hfind, hch]
      · simp [redo_image, hfind, hch]
    · intro c0 hok
      simp only [redo_image, hfind] at hok
      rcases hch : redo_children db image_id with _ | ⟨c, cs⟩
      · rw [hch] at hok
        simp at hok
      · rw [hch] at hok
        have hc0 : pick_latest c cs = c0 := by
          simpa using hok
        rw [← hc0]
        exact pick_latest_split c cs

/-- Witness for `undo_redo_amended`: in `demo_db`, undoing `childA` (whose
parent reference targets the existing `root`) returns the root record. -/
theorem undo_redo_amended_witness :
    undo_image demo_db "childA"
      = Except.ok { id := "root", parentId := none, createdAt := 0 } :=
  ((undo_redo_amended.1 demo_db "childA"
      { id := "childA", parentId := some ("root"), createdAt := 1 } rfl).2
    "root" rfl (by decide)).1
    { id := "root", parentId := none, createdAt := 0 } rfl

/-- One consumed completion increments exactly one counter and leaves the rest
of the job record alone. -/
theorem record_outcome_sum (s : BatchStatus) (b : Bool) :
    (record_outcome s b).completed + (record_outcome s b).failed
      = s.completed + s.failed + 1 ∧
    (record_outcome s b).total = s.total ∧
    (record_outcome s b).status = s.status := by
  cases b <;> simp [record_outcome] <;> omega

/-- Unfolding lemma for `List.range'`. -/
theorem range_from_cons (a n : ℕ) : List.range' a (n + 1) = a :: List.range' (a + 1) n :=
  rfl

/-- States reached from `s`: the counter sums advance one by one, and `total`
and `status` never change underway. -/
theorem batch_states_from_spec (s : BatchStatus) :
    ∀ outcomes : List Bool,
      (batch_states_from s outcomes).map (fun x => x.completed + x.failed)
        = List.range' (s.completed + s.failed) (outcomes.length + 1) ∧
      (∀ x ∈ batch_states_from s outcomes,
        x.total = s.total ∧ x.status = s.status ∧
        x.completed + x.failed ≤ s.completed + s.failed + outcomes.length) := by
  intro outcomes
  induction outcomes generalizing s with
  | nil =>
    constructor
    · simp [batch_states_from, List.range']
    · intro x hx
      simp only [batch_states_from, List.mem_singleton] at hx
      subst hx
      exact ⟨rfl, rfl, by omega⟩
  | cons b bs ih =>
    have hsum := record_outcome_sum s b
    have ihs := ih (record_outcome s b)
    constructor
    · simp only [batch_states_from, List.map_cons, ihs.1, List.length_cons]
      rw [range_from_cons (s.completed + s.failed) (bs.length + 1), hsum.1]
    · intro x hx
      simp only [batch_states_from, List.mem_cons] at hx
      rcases hx with hxs | hx2
      · subst hxs
        exact ⟨rfl, rfl, by omega⟩
      · have h3 := ihs.2 x hx2
        refine ⟨?_, ?_, ?_⟩
        · rw [h3.1, hsum.2.1]
        · rw [h3.2.1, hsum.2.2]
        · have h4 := h3.2.2
          rw [hsum.1] at h4
          simp only [List.length_cons]
          omega

/-- The fold of consumed completions counts successes and failures. -/
theorem foldl_record_outcome (outcomes : List Bool) : ∀ s : BatchStatus,
    outcomes.foldl record_outcome s =
      { total := s.total, completed := s.completed + outcomes.count true,
        failed := s.failed + outcomes.count false, status := s.status } := by
  induction outcomes with
  | nil =>
    intro s
    simp
  | cons b bs ih =>
    intro s
    rw [List.foldl_cons, ih]
    cases b <;>
      simp [record_outcome, List.count_cons, BatchStatus.mk.injEq] <;> omega

/--
Claim C4: the counter logic of `_run_batch` does keep `completed + failed`
increasing one by one up to `total` with `status` flipping to complete exactly
once at the end — but `_generate_single_batch_item` raises on every path (a
successful `generate_image` call returns a `str` path that line 2331 then
subscripts, raising `TypeError`), so every unit is counted failed and the
claimed scenario `completed=3, failed=2` for a 5-unit batch with 2 failures is
unreachable: all five units fail and the job ends `completed=0, failed=5`.
-/
theorem batch_job_code_bug :
    (∀ g : Except String String, ∃ e, generate_single_batch_item g = Except.error e) ∧
    (∀ outcomes : List Bool,
        (run_batch_states outcomes).map (fun x => x.completed + x.failed)
          = List.range' 0 (outcomes.length + 1) ∧
        (∀ x ∈ run_batch_states outcomes,
          x.completed + x.failed ≤ x.total ∧ x.total = outcomes.length ∧
          x.status = "processing") ∧
        run_batch_final outcomes =
          { total := outcomes.length, completed := outcomes.count true,
            failed := outcomes.count false, status := "complete" }) ∧
    run_batch_final (List.replicate 5 false) =
      { total := 5, completed := 0, failed := 5, status := "complete" } := by
  refine ⟨?_, ?_, by rfl⟩
  · intro g
    cases g with
    | error e => exact ⟨e, rfl⟩
    | ok p => exact ⟨("TypeError: string indices must be integers"), rfl⟩
  · intro outcomes
    have hspec := batch_states_from_spec (init_batch_status outcomes.length) outcomes
    refine ⟨?_, ?_, ?_⟩
    · have h1 := hspec.1
      simpa [run_batch_states, init_batch_status] using h1
    · intro x hx
      have h3 := hspec.2 x (by simpa [run_batch_states] using hx)
      have ht : x.total = outcomes.length := by
        simpa [init_batch_status] using h3.1
      refine ⟨?_, ht, ?_⟩
      · have h4 := h3.2.2
        simp only [init_batch_status] at h4
        omega
      · simpa [init_batch_status] using h3.2.1
    · rw [run_batch_final, foldl_record_outcome]
      simp [init_batch_status]

/-- Witness for `batch_job_code_bug`: the initial state of a two-unit batch is
an observable state with counters within `total` and status processing. -/
theorem batch_job_code_bug_witness :
    (init_batch_status 2).completed + (init_batch_status 2).failed
      ≤ (init_batch_status 2).total ∧
    (init_batch_status 2).total = ([true, false] : List Bool).length ∧
    (init_batch_status 2).status = "processing" :=
  (batch_job_code_bug.2.1 [true, false]).2.1 (init_batch_status 2)
    (by simp [run_batch_states, batch_states_from])

end NinjaImage
